import Mathlib

/-!
Shallow embedding of the Financial Metric Extraction, Validation, and
Temporal Aggregation Engine: the range validator and confidence scoring
(`Agents/financial_extractor.py`, class `FinancialDataValidator`), the
value normalizer and period extraction (`FinancialDataExtractor`), the
period/metric aggregation (`Agents/calculation_agent.py`), and the
financial calculator (`tools/calculator.py`).  Python floats are modelled
as exact rationals; Python dicts returned by the calculator are modelled
as `Except`/structures; a Python exception escaping a function is a
distinguished constructor of the result type.
-/

namespace FinSpec

/-! ### FinancialDataValidator (Agents/financial_extractor.py, lines 7-74) -/

/-- Embedding of `self.table_cell_ranges` (lines 11-18): per-metric (min, max) band for
credible table-cell magnitudes; `none` for metrics absent from the dict. -/
def tableCellRange (m : String) : Option (ℚ × ℚ) :=
  match m with
  | "net_profit" => some (1, 1000)
  | "total_assets" => some (1, 10000)
  | "shareholder_equity" => some (1, 10000)
  | "total_loans" => some (1, 10000)
  | "total_deposits" => some (1, 10000)
  | "net_interest_income" => some (1, 1000)
  | _ => none

/-- Embedding of `self.main_financial_ranges` (lines 20-27): per-metric (min, max) band for
credible headline figures. -/
def mainFinancialRange (m : String) : Option (ℚ × ℚ) :=
  match m with
  | "net_profit" => some (1000, 20000)
  | "total_assets" => some (400000, 1200000)
  | "shareholder_equity" => some (80000, 120000)
  | "total_loans" => some (200000, 500000)
  | "total_deposits" => some (300000, 600000)
  | "net_interest_income" => some (1000, 15000)
  | _ => none

/-- The metrics with defined bands (keys of `main_financial_ranges`). -/
def modelledMetrics : List String :=
  ["net_profit", "total_assets", "shareholder_equity", "total_loans",
   "total_deposits", "net_interest_income"]

inductive ValueType where
  | tableCell
  | mainFinancial
  deriving DecidableEq, Repr

/-- The dict returned by `validate_extraction`: `is_valid`, `confidence`,
and the `value_type` key ( `none` when the key is absent). -/
structure ValidationResult where
  is_valid : Bool
  confidence : ℚ
  value_type : Option ValueType
  deriving DecidableEq, Repr

/-- Python `round(x, 2)` (banker's rounding at two decimals, on the exact
rational; binary-float representation error is outside the model). -/
def round2 (q : ℚ) : ℚ :=
  let x : ℚ := q * 100
  let f : ℤ := ⌊x⌋
  let frac : ℚ := x - f
  let r : ℤ :=
    if frac < 1/2 then f
    else if 1/2 < frac then f + 1
    else if f % 2 = 0 then f else f + 1
  (r : ℚ) / 100

/-- Embedding of `FinancialDataValidator.validate_extraction` (lines 32-74).  The
table-cell band is checked first; then the main-financial band with the
midpoint-deviation confidence `max(0.7, 1 - |value - median| / median)`
rounded to two decimals; otherwise invalid with confidence 0.1.  Metrics
without bands are accepted at confidence 0.7. -/
def validate_extraction (metric : String) (value : ℚ) : ValidationResult :=
  match mainFinancialRange metric with
  | none => ⟨true, 7/10, none⟩
  | some (mainMin, mainMax) =>
    let mainCheck : ValidationResult :=
      if mainMin ≤ value ∧ value ≤ mainMax then
        let median := (mainMin + mainMax) / 2
        let deviation := |value - median| / median
        ⟨true, round2 (max (7/10) (1 - deviation)), some .mainFinancial⟩
      else
        ⟨false, 1/10, none⟩
    match tableCellRange metric with
    | none => mainCheck
    | some (tableMin, tableMax) =>
      if tableMin ≤ value ∧ value ≤ tableMax then
        ⟨true, if 1 ≤ value ∧ value ≤ 1000 then 7/10 else 6/10, some .tableCell⟩
      else
        mainCheck

/-! ### FinancialCalculator (tools/calculator.py) -/

/-- The result dict of `calculate_percentage_change` (numeric fields). -/
structure PctChangeResult where
  old_value : ℚ
  new_value : ℚ
  absolute_change : ℚ
  percentage_change : ℚ
  deriving DecidableEq, Repr

/-- Embedding of `FinancialCalculator.calculate_percentage_change` (lines 9-26): the
`{"error": ...}` dict is the `Except.error` branch. -/
def calculate_percentage_change (old_value new_value : ℚ) :
    Except String PctChangeResult :=
  if old_value = 0 then
    .error "Cannot calculate percentage change from zero"
  else
    let change := new_value - old_value
    .ok ⟨old_value, new_value, change, change / old_value * 100⟩

/-- Embedding of `FinancialCalculator.calculate_roe` (lines 28-43); the numeric payload is
the `roe_percentage` field. -/
def calculate_roe (net_income shareholder_equity : ℚ) : Except String ℚ :=
  if shareholder_equity = 0 then
    .error "Cannot calculate ROE with zero equity"
  else
    .ok (net_income / shareholder_equity * 100)

/-- Embedding of `FinancialCalculator.calculate_loan_to_deposit` (lines 45-60). -/
def calculate_loan_to_deposit (total_loans total_deposits : ℚ) :
    Except String ℚ :=
  if total_deposits = 0 then
    .error "Cannot calculate LDR with zero deposits"
  else
    .ok (total_loans / total_deposits * 100)

/-- Embedding of `FinancialCalculator.calculate_nim` (lines 62-77). -/
def calculate_nim (net_interest_income earning_assets : ℚ) :
    Except String ℚ :=
  if earning_assets = 0 then
    .error "Cannot calculate NIM with zero earning assets"
  else
    .ok (net_interest_income / earning_assets * 100)

/-! ### Data model (models/schemas.py) -/

/-- The `FinancialMetric` enum (models/schemas.py, lines 19-31). -/
inductive FinancialMetric where
  | net_profit
  | net_interest_income
  | total_assets
  | total_loans
  | total_deposits
  | shareholder_equity
  | roe
  | roa
  | nim
  | loan_to_deposit
  | cost_of_risk
  | npl_ratio
  deriving DecidableEq, Repr

/-- Embedding of `FinancialMetric(name)` construction from the enum's string value;
`none` models the `ValueError` Python raises for an unknown value. -/
def FinancialMetric.ofString (s : String) : Option FinancialMetric :=
  match s with
  | "net_profit" => some .net_profit
  | "net_interest_income" => some .net_interest_income
  | "total_assets" => some .total_assets
  | "total_loans" => some .total_loans
  | "total_deposits" => some .total_deposits
  | "shareholder_equity" => some .shareholder_equity
  | "return_on_equity" => some .roe
  | "return_on_assets" => some .roa
  | "net_interest_margin" => some .nim
  | "loan_to_deposit_ratio" => some .loan_to_deposit
  | "cost_of_risk" => some .cost_of_risk
  | "npl_ratio" => some .npl_ratio
  | _ => none

/-- Embedding of `FinancialDataPoint` (models/schemas.py, lines 55-62), restricted to the
fields the extraction/aggregation logic reads; the nested document-metadata
record is provenance only and is not consulted by any claim. -/
structure FinancialDataPoint where
  metric : FinancialMetric
  value : ℚ
  period : String
  confidence : ℚ
  source_page : Int
  source_section : String
  deriving DecidableEq, Repr

/-- Pydantic construction of a `FinancialDataPoint`: the `confidence` field
has `Field(ge=0, le=1)`, so construction fails (raises, which every caller
catches and turns into "skip this candidate") when confidence is out of
bounds, and `FinancialMetric(metric_name)` fails on an unknown name. -/
def mkFinancialDataPoint (metricName : String) (value : ℚ) (period : String)
    (confidence : ℚ) (page : Int) (sect : String) :
    Option FinancialDataPoint :=
  match FinancialMetric.ofString metricName with
  | none => none
  | some m =>
    if 0 ≤ confidence ∧ confidence ≤ 1 then
      some ⟨m, value, period, confidence, page, sect⟩
    else
      none

/-! ### Data Point Aggregator (Agents/calculation_agent.py, lines 31-42) -/

/-- Embedding of `CalculationAgent._group_data_by_period`: builds the nested dict
`grouped[period][metric] = dp.value` by iterating the data points in order;
each assignment overwrites any earlier value for the same keys.  The nested
dict is modelled as the lookup function it defines. -/
def group_data_by_period (dps : List FinancialDataPoint) :
    String → FinancialMetric → Option ℚ :=
  dps.foldl
    (fun acc dp p m =>
      if p = dp.period ∧ m = dp.metric then some dp.value else acc p m)
    (fun _ _ => none)

/-! ### Extraction stage (Agents/financial_extractor.py, lines 221-320)

The regex pattern tables themselves are not needed by any claim; the
embedding starts from the candidate list a chunk's pattern scan yields:
pairs of (metric name, captured value string), exactly what the loop body
of `_extract_metrics_from_chunk` consumes per match. -/

/-- Loop body of `_extract_metrics_from_chunk` (lines 254-285) applied to
every (metric-name, captured-string) candidate: normalize, keep only truthy
positive values, validate, and construct the data point (construction
failures are caught and skipped).  `convert_to_numeric` is defined below. -/
def extract_from_candidates (convert : String → ℚ)
    (cands : List (String × String)) (period : String)
    (page : Int) (sect : String) : List FinancialDataPoint :=
  cands.filterMap (fun c =>
    let numeric := convert c.2
    if numeric ≠ 0 ∧ 0 < numeric then
      let validation := validate_extraction c.1 numeric
      if validation.is_valid then
        mkFinancialDataPoint c.1 numeric period validation.confidence
          page sect
      else
        none
    else
      none)

/-- One entry of the pre-extracted table-metrics dict handed to
`_extract_metrics_from_table_data`: metric name, numeric value, and the
table-stage confidence. -/
structure TableMetricEntry where
  name : String
  value : ℚ
  confidence : ℚ
  deriving DecidableEq, Repr

/-- Embedding of `_extract_metrics_from_table_data` (lines 287-320): validate each table
entry, take the larger of the validation confidence and the table
confidence, and construct the data point (construction failures are caught
and skipped). -/
def extract_from_table_data (entries : List TableMetricEntry)
    (period : String) (page : Int) (sect : String) :
    List FinancialDataPoint :=
  entries.filterMap (fun e =>
    let validation := validate_extraction e.name e.value
    if validation.is_valid then
      mkFinancialDataPoint e.name e.value period
        (max validation.confidence e.confidence) page sect
    else
      none)

/-- The metric names `TableMetricsExtractor.metric_mapping`
(data_processing/table_metrics.py, lines 6-25) can emit: the pre-extracted
table-metrics dict handed to the extraction stage only ever has these keys. -/
def tableMetricKeys : List String :=
  ["net_profit", "total_assets", "total_loans", "total_deposits",
   "shareholder_equity", "net_interest_income"]

/-! ### Trend analysis (tools/calculator.py, lines 79-111) -/

/-- Python `min(x :: l)`: left fold of binary min over the list. -/
def pyMin (x : ℚ) (l : List ℚ) : ℚ := l.foldl min x

/-- Python `max(x :: l)`. -/
def pyMax (x : ℚ) (l : List ℚ) : ℚ := l.foldl max x

/-- Python `list.index(x)`: index of the first occurrence of `x`
(the length when `x` is absent; callers below only use it when present). -/
def firstIdx (x : ℚ) : List ℚ → Nat
  | [] => 0
  | y :: ys => if y = x then 0 else firstIdx x ys + 1

/-- The loop `for i in range(1, len(values))` computing
`((values[i] - values[i-1]) / values[i-1]) * 100 if values[i-1] != 0 else 0`. -/
def growthRates : List ℚ → List ℚ
  | v0 :: v1 :: rest =>
    (if v0 ≠ 0 then (v1 - v0) / v0 * 100 else 0) :: growthRates (v1 :: rest)
  | _ => []

/-- The result dict of `calculate_trend` (lines 97-108). -/
structure TrendResult where
  periods : List String
  values : List ℚ
  mean : ℚ
  min_value : ℚ
  min_period : String
  max_value : ℚ
  max_period : String
  growth_rates : List ℚ
  average_growth : ℚ
  deriving DecidableEq, Repr

/-- Outcome of `calculate_trend`: `ok` for the result dict, `err` for the
returned `{"error": ...}` dict, `indexError` for an uncaught Python
`IndexError` escaping `periods[values.index(...)]`. -/
inductive TrendOutcome where
  | ok (r : TrendResult)
  | err (msg : String)
  | indexError
  deriving DecidableEq, Repr

/-- Embedding of `FinancialCalculator.calculate_trend` (lines 79-111).  With fewer than
two values it returns the error dict; otherwise it computes mean, extrema
with the period at the first index of each extremum (an out-of-range index
raises `IndexError`), growth rates, and their arithmetic mean. -/
def calculate_trend (values : List ℚ) (periods : List String) : TrendOutcome :=
  match values with
  | [] => .err "Need at least 2 values for trend analysis"
  | [_] => .err "Need at least 2 values for trend analysis"
  | v0 :: v1 :: vs =>
    let vals := v0 :: v1 :: vs
    let mean := vals.sum / (vals.length : ℚ)
    let minVal := pyMin v0 (v1 :: vs)
    let maxVal := pyMax v0 (v1 :: vs)
    match periods.get? (firstIdx minVal vals), periods.get? (firstIdx maxVal vals) with
    | some minPeriod, some maxPeriod =>
      let rates := growthRates vals
      let avg := if rates = [] then 0 else rates.sum / (rates.length : ℚ)
      .ok ⟨periods, vals, mean, minVal, minPeriod, maxVal, maxPeriod, rates, avg⟩
    | _, _ => .indexError

/-! ### Temporal Reference Parser
(`FinancialDataExtractor._extract_target_periods`,
Agents/financial_extractor.py, lines 326-346)

The two regexes `(Q[1-4])\s*(\d{4})` and `(\d{4})\s*(Q[1-4])` are embedded
as character-level matchers with `re.finditer` scan semantics: try to match
at each position, and on success continue scanning after the match.  `\s`
is modelled by the ASCII whitespace class. -/

/-- Python's ASCII digit class (`\\d` over the basic latin range), phrased
on `Char.toNat` ('0' = 48 .. '9' = 57). -/
def pyIsDigit (c : Char) : Bool := 48 ≤ c.toNat && c.toNat ≤ 57

def isPySpace (c : Char) : Bool :=
  c = ' ' || c = '\t' || c = '\n' || c = '\r' ||
  c = Char.ofNat 11 || c = Char.ofNat 12

def isQChar (c : Char) : Bool := c = 'Q' || c = 'q'

def isQuarterDigit (c : Char) : Bool :=
  c = '1' || c = '2' || c = '3' || c = '4'

/-- The pattern `\d{4}` at the head of the input: four digit characters, returned with
the remaining input. -/
def takeDigits4 (l : List Char) :
    Option ((Char × Char × Char × Char) × List Char) :=
  match l with
  | d1 :: d2 :: d3 :: d4 :: rest =>
    if pyIsDigit d1 && pyIsDigit d2 && pyIsDigit d3 && pyIsDigit d4 then
      some ((d1, d2, d3, d4), rest)
    else none
  | _ => none

/-- Match `(Q[1-4])\s*(\d{4})` (case-insensitively) at the head of the
input, returning the two captured groups and the input after the match. -/
def matchQYear : List Char → Option ((List Char × List Char) × List Char)
  | c1 :: c2 :: rest =>
    if isQChar c1 && isQuarterDigit c2 then
      match takeDigits4 (rest.dropWhile isPySpace) with
      | some ((d1, d2, d3, d4), rest2) =>
        some (([c1, c2], [d1, d2, d3, d4]), rest2)
      | none => none
    else none
  | _ => none

/-- Match `(\d{4})\s*(Q[1-4])` (case-insensitively) at the head of the
input. -/
def matchYearQ (l : List Char) :
    Option ((List Char × List Char) × List Char) :=
  match takeDigits4 l with
  | some ((d1, d2, d3, d4), rest) =>
    match rest.dropWhile isPySpace with
    | q :: n :: rest2 =>
      if isQChar q && isQuarterDigit n then
        some (([d1, d2, d3, d4], [q, n]), rest2)
      else none
    | _ => none
  | none => none

/-- The `re.finditer` driver: scan left to right, emit every match, resume
after each match.  Fuel (initialised to the input length, an upper bound
on the number of scan steps since each step consumes at least one
character) makes the recursion structural. -/
def findAllAux (m : List Char → Option ((List Char × List Char) × List Char)) :
    Nat → List Char → List (List Char × List Char)
  | 0, _ => []
  | _ + 1, [] => []
  | fuel + 1, c :: cs =>
    match m (c :: cs) with
    | some (g, rest) => g :: findAllAux m fuel rest
    | none => findAllAux m fuel cs

def findAll (m : List Char → Option ((List Char × List Char) × List Char))
    (l : List Char) : List (List Char × List Char) :=
  findAllAux m l.length l

def upperChars (l : List Char) : List Char := l.map Char.toUpper

/-- Embedding of `match.group(1).upper().startswith('Q')` (line 341). -/
def startsWithUpperQ (l : List Char) : Bool :=
  match upperChars l with
  | c :: _ => c == 'Q'
  | [] => false

/-- Lines 341-343: pick quarter and year out of the two captured groups and
build `f"{year}_{quarter.upper()}"`. -/
def periodOfGroups (g : List Char × List Char) : String :=
  let quarter := if startsWithUpperQ g.1 then g.1 else g.2
  let year := if startsWithUpperQ g.1 then g.2 else g.1
  String.mk (year ++ '_' :: upperChars quarter)

/-- Embedding of `FinancialDataExtractor._extract_target_periods` (lines 326-346): all
matches of the first pattern, then all matches of the second, mapped to
period strings; `list(set(periods))` collapses duplicates (Python's set
iteration order is arbitrary, so only the set of elements is meaningful;
the embedding returns the first-occurrence deduplication). -/
def extract_target_periods (query : String) : List String :=
  let l := query.data
  let groups := findAll matchQYear l ++ findAll matchYearQ l
  (groups.map periodOfGroups).dedup

/-! ### Value Normalizer (`FinancialDataExtractor._convert_to_numeric`,
Agents/financial_extractor.py, lines 398-424) -/

def digitVal (c : Char) : ℕ := c.toNat - '0'.toNat

/-- Decimal value of a digit string. -/
def natOfDigits (l : List Char) : ℕ := l.foldl (fun n c => 10 * n + digitVal c) 0

/-- Embedding of `re.sub(r'[^\d.]', '', value_str.strip())`: keep only digits and dots
(the surrounding `strip()` removes only whitespace, which the filter drops
anyway). -/
def cleanNumeric (l : List Char) : List Char :=
  l.filter (fun c => pyIsDigit c || c = '.')

/-- Split a character list at every dot (`n` dots yield `n+1` pieces). -/
def splitDots : List Char → List (List Char)
  | [] => [[]]
  | c :: cs =>
    if c = '.' then [] :: splitDots cs
    else
      match splitDots cs with
      | p :: ps => (c :: p) :: ps
      | [] => [[c]]

/-- Python `float(cleaned)` on a string of digits and dots: an integer
literal, or a literal with one dot and a digit on at least one side;
anything else raises `ValueError` (modelled as `none`).  The parse is kept
in integers — (mantissa, number of digits after the dot) — and converted
to the rational value by `floatOfParts`. -/
def parseFloatDigitsDots (l : List Char) : Option (ℕ × ℕ) :=
  match splitDots l with
  | [a] => if a ≠ [] ∧ a.all pyIsDigit then some (natOfDigits a, 0) else none
  | [a, b] =>
    if (a ≠ [] ∨ b ≠ []) ∧ a.all pyIsDigit ∧ b.all pyIsDigit then
      some (natOfDigits (a ++ b), b.length)
    else none
  | _ => none

/-- The value of a parsed float literal: mantissa / 10^(fractional digits). -/
def floatOfParts (p : ℕ × ℕ) : ℚ := (p.1 : ℚ) / (10 : ℚ) ^ p.2

def beginsWith : List Char → List Char → Bool
  | [], _ => true
  | _ :: _, [] => false
  | x :: xs, y :: ys => x = y && beginsWith xs ys

/-- Python `needle in haystack` substring test. -/
def containsSub (needle : List Char) : List Char → Bool
  | [] => beginsWith needle []
  | c :: cs => beginsWith needle (c :: cs) || containsSub needle cs

def lowerChars (l : List Char) : List Char := l.map Char.toLower

/-- The `"'000"` thousands marker (apostrophe, three zeros). -/
def thousandsMarker : List Char := [Char.ofNat 39, '0', '0', '0']

/-- Embedding of `FinancialDataExtractor._convert_to_numeric` (lines 398-424): strip
non-numeric characters, parse, then scale by the unit words found in the
original string; every failure path (empty string, no digits, unparsable
literal) returns the 0.0 sentinel via the caught `ValueError`. -/
def convert_to_numeric (s : String) : ℚ :=
  let l := s.data
  match parseFloatDigitsDots (cleanNumeric l) with
  | none => 0
  | some p =>
    let v := floatOfParts p
    let low := lowerChars l
    if containsSub "trillion".data low then v * 1000000
    else if containsSub "billion".data low || containsSub "bn".data low then v * 1000
    else if containsSub thousandsMarker l then v / 1000
    else v

/-- Membership of a value in an optional (min, max) band;
values never fall in an absent band. -/
def inBand (r : Option (ℚ × ℚ)) (v : ℚ) : Prop :=
  match r with
  | some (lo, hi) => lo ≤ v ∧ v ≤ hi
  | none => False

/-- A data point for (2022_Q1, net_profit) with confidence 0.8, the spec's
higher-confidence duplicate. -/
def dupHigherConf : FinancialDataPoint :=
  ⟨.net_profit, 5000, "2022_Q1", 4/5, 1, "income_statement"⟩

/-- A later-added data point for the same (2022_Q1, net_profit) pair with
confidence 0.6. -/
def dupLowerConf : FinancialDataPoint :=
  ⟨.net_profit, 300, "2022_Q1", 3/5, 1, "income_statement"⟩

/-- The validator returned the table_cell-valid outcome. -/
def outcomeTableCell (r : ValidationResult) : Prop :=
  r.is_valid = true ∧ r.value_type = some ValueType.tableCell

/-- The validator returned the main_financial-valid outcome. -/
def outcomeMain (r : ValidationResult) : Prop :=
  r.is_valid = true ∧ r.value_type = some ValueType.mainFinancial

/-- The validator returned the invalid outcome. -/
def outcomeInvalid (r : ValidationResult) : Prop :=
  r.is_valid = false ∧ r.value_type = none

/-- A period string of the shape `YYYY_Qn` with a four-digit year and a
quarter ordinal restricted to 1..4. -/
def validPeriodString (p : String) : Prop :=
  ∃ (y : List Char) (c : Char), p = String.mk (y ++ ['_', 'Q', c]) ∧
    y.length = 4 ∧ (∀ d ∈ y, pyIsDigit d = true) ∧
    (c = '1' ∨ c = '2' ∨ c = '3' ∨ c = '4')

end FinSpec

namespace FinSpec

/-! ## Theorems -/

/-! Helper lemmas about the Python list primitives used by
`calculate_trend`. -/

theorem pyMin_cons (x y : ℚ) (l : List ℚ) : pyMin x (y :: l) = pyMin (min x y) l := rfl

theorem pyMax_cons (x y : ℚ) (l : List ℚ) : pyMax x (y :: l) = pyMax (max x y) l := rfl

theorem pyMin_le_init (l : List ℚ) : ∀ x, pyMin x l ≤ x := by
  induction l with
  | nil => intro x; exact le_refl x
  | cons y ys ih =>
    intro x
    exact le_trans (ih (min x y)) (min_le_left x y)

theorem pyMin_le_mem (l : List ℚ) : ∀ x, ∀ y ∈ l, pyMin x l ≤ y := by
  induction l with
  | nil => intro x y hy; exact absurd hy (List.not_mem_nil y)
  | cons z zs ih =>
    intro x y hy
    rcases List.mem_cons.mp hy with h | h
    · subst h
      exact le_trans (pyMin_le_init zs (min x y)) (min_le_right x y)
    · exact ih (min x z) y h

theorem pyMin_eq_or_mem (l : List ℚ) : ∀ x, pyMin x l = x ∨ pyMin x l ∈ l := by
  induction l with
  | nil => intro x; exact Or.inl rfl
  | cons y ys ih =>
    intro x
    rcases ih (min x y) with h | h
    · rcases min_choice x y with hc | hc
      · exact Or.inl (by rw [pyMin_cons, h, hc])
      · exact Or.inr (by rw [pyMin_cons, h, hc]; exact List.mem_cons_self y ys)
    · exact Or.inr (List.mem_cons_of_mem y h)

theorem pyMax_init_le (l : List ℚ) : ∀ x, x ≤ pyMax x l := by
  induction l with
  | nil => intro x; exact le_refl x
  | cons y ys ih =>
    intro x
    exact le_trans (le_max_left x y) (ih (max x y))

theorem pyMax_mem_le (l : List ℚ) : ∀ x, ∀ y ∈ l, y ≤ pyMax x l := by
  induction l with
  | nil => intro x y hy; exact absurd hy (List.not_mem_nil y)
  | cons z zs ih =>
    intro x y hy
    rcases List.mem_cons.mp hy with h | h
    · subst h
      exact le_trans (le_max_right x y) (pyMax_init_le zs (max x y))
    · exact ih (max x z) y h

theorem pyMax_eq_or_mem (l : List ℚ) : ∀ x, pyMax x l = x ∨ pyMax x l ∈ l := by
  induction l with
  | nil => intro x; exact Or.inl rfl
  | cons y ys ih =>
    intro x
    rcases ih (max x y) with h | h
    · rcases max_choice x y with hc | hc
      · exact Or.inl (by rw [pyMax_cons, h, hc])
      · exact Or.inr (by rw [pyMax_cons, h, hc]; exact List.mem_cons_self y ys)
    · exact Or.inr (List.mem_cons_of_mem y h)

theorem firstIdx_lt_length {x : ℚ} :
    ∀ {l : List ℚ}, x ∈ l → firstIdx x l < l.length := by
  intro l
  induction l with
  | nil => intro h; exact absurd h (List.not_mem_nil x)
  | cons y ys ih =>
    intro h
    by_cases hy : y = x
    · simp [firstIdx, hy]
    · rcases List.mem_cons.mp h with h' | h'
      · exact absurd h'.symm hy
      · simpa [firstIdx, hy] using ih h'

theorem get?_firstIdx {x : ℚ} :
    ∀ {l : List ℚ}, x ∈ l → l.get? (firstIdx x l) = some x := by
  intro l
  induction l with
  | nil => intro h; exact absurd h (List.not_mem_nil x)
  | cons y ys ih =>
    intro h
    by_cases hy : y = x
    · simp [firstIdx, hy]
    · rcases List.mem_cons.mp h with h' | h'
      · exact absurd h'.symm hy
      · simpa [firstIdx, hy] using ih h'

theorem firstIdx_before {x : ℚ} :
    ∀ {l : List ℚ} {j : ℕ}, j < firstIdx x l → l.get? j ≠ some x := by
  intro l
  induction l with
  | nil => intro j hj; simp [firstIdx] at hj
  | cons y ys ih =>
    intro j hj
    by_cases hy : y = x
    · simp [firstIdx, hy] at hj
    · cases j with
      | zero => simpa using hy
      | succ m =>
        simp only [firstIdx, hy, if_false] at hj
        simpa using ih (Nat.lt_of_succ_lt_succ hj)

theorem exists_get? {α : Type} :
    ∀ (l : List α) (n : ℕ), n < l.length → ∃ a, l.get? n = some a := by
  intro l
  induction l with
  | nil => intro n hn; simp at hn
  | cons a t ih =>
    intro n hn
    cases n with
    | zero => exact ⟨a, rfl⟩
    | succ m => exact ih m (Nat.lt_of_succ_lt_succ hn)

theorem growthRates_cons_cons (a b : ℚ) (l : List ℚ) :
    growthRates (a :: b :: l) =
      (if a ≠ 0 then (b - a) / a * 100 else 0) :: growthRates (b :: l) := rfl

theorem growthRates_zip :
    ∀ l : List ℚ, growthRates l = (l.zip l.tail).map
      (fun q => if q.1 ≠ 0 then (q.2 - q.1) / q.1 * 100 else 0) := by
  intro l
  induction l with
  | nil => rfl
  | cons a t ih =>
    cases t with
    | nil => rfl
    | cons b t' =>
      rw [growthRates_cons_cons, ih]
      rfl

theorem growthRates_length :
    ∀ (a : ℚ) (l : List ℚ), (growthRates (a :: l)).length = l.length := by
  intro a l
  induction l generalizing a with
  | nil => rfl
  | cons b t ih => simpa [growthRates_cons_cons] using ih b

/-- Core behaviour of `calculate_trend` on at-least-two values with a
periods list long enough for every index lookup: the full result dict is
produced, with mean, extrema and their first-occurrence periods, and the
growth-rate series and its arithmetic mean. -/
theorem calculate_trend_ok (values : List ℚ) (periods : List String)
    (h2 : 2 ≤ values.length) (hlen : values.length ≤ periods.length) :
    ∃ r, calculate_trend values periods = TrendOutcome.ok r ∧
      r.periods = periods ∧
      r.values = values ∧
      r.mean = values.sum / (values.length : ℚ) ∧
      r.min_value ∈ values ∧ (∀ y ∈ values, r.min_value ≤ y) ∧
      r.max_value ∈ values ∧ (∀ y ∈ values, y ≤ r.max_value) ∧
      (∃ i, values.get? i = some r.min_value ∧
        (∀ j, j < i → values.get? j ≠ some r.min_value) ∧
        periods.get? i = some r.min_period) ∧
      (∃ i, values.get? i = some r.max_value ∧
        (∀ j, j < i → values.get? j ≠ some r.max_value) ∧
        periods.get? i = some r.max_period) ∧
      r.growth_rates = (values.zip values.tail).map
        (fun q => if q.1 ≠ 0 then (q.2 - q.1) / q.1 * 100 else 0) ∧
      r.growth_rates.length + 1 = values.length ∧
      r.average_growth = r.growth_rates.sum / ((r.growth_rates.length : ℕ) : ℚ) := by
  match values, h2 with
  | v0 :: v1 :: vs, _ =>
    have hminmem : pyMin v0 (v1 :: vs) ∈ v0 :: v1 :: vs := by
      rcases pyMin_eq_or_mem (v1 :: vs) v0 with h | h
      · rw [h]; exact List.mem_cons_self _ _
      · exact List.mem_cons_of_mem _ h
    have hmaxmem : pyMax v0 (v1 :: vs) ∈ v0 :: v1 :: vs := by
      rcases pyMax_eq_or_mem (v1 :: vs) v0 with h | h
      · rw [h]; exact List.mem_cons_self _ _
      · exact List.mem_cons_of_mem _ h
    have hi1 := firstIdx_lt_length hminmem
    have hi2 := firstIdx_lt_length hmaxmem
    obtain ⟨mp, hmp⟩ := exists_get? periods _ (lt_of_lt_of_le hi1 hlen)
    obtain ⟨mq, hmq⟩ := exists_get? periods _ (lt_of_lt_of_le hi2 hlen)
    refine ⟨⟨periods, v0 :: v1 :: vs,
      (v0 :: v1 :: vs).sum / ((v0 :: v1 :: vs).length : ℚ),
      pyMin v0 (v1 :: vs), mp, pyMax v0 (v1 :: vs), mq,
      growthRates (v0 :: v1 :: vs),
      (growthRates (v0 :: v1 :: vs)).sum /
        (((growthRates (v0 :: v1 :: vs)).length : ℕ) : ℚ)⟩,
      ?_, rfl, rfl, rfl, hminmem, ?_, hmaxmem, ?_, ?_, ?_, ?_, ?_, rfl⟩
    · simp only [calculate_trend, hmp, hmq]
      simp [growthRates_cons_cons]
    · intro y hy
      rcases List.mem_cons.mp hy with h | h
      · rw [h]; exact pyMin_le_init (v1 :: vs) v0
      · exact pyMin_le_mem (v1 :: vs) v0 y h
    · intro y hy
      rcases List.mem_cons.mp hy with h | h
      · rw [h]; exact pyMax_init_le (v1 :: vs) v0
      · exact pyMax_mem_le (v1 :: vs) v0 y h
    · exact ⟨_, get?_firstIdx hminmem, fun j hj => firstIdx_before hj, hmp⟩
    · exact ⟨_, get?_firstIdx hmaxmem, fun j hj => firstIdx_before hj, hmq⟩
    · exact growthRates_zip (v0 :: v1 :: vs)
    · simp [growthRates_length]

/-- C6: on parallel lists (same length, at least two values) the trend
calculation returns the result dict with the arithmetic mean, the extrema
with the period at their first occurrence, the per-step growth rates with
a zero prior value contributing 0 for that step, and `average_growth` the
arithmetic mean of those rates; `Trend([100,200,150],[p1,p2,p3])` yields
`max_period = p2`, `min_period = p1` and `average_growth = 37.5`; fewer
than two values yields the typed error dict. -/
theorem claim_C6 :
    (∀ (values : List ℚ) (periods : List String),
      values.length = periods.length → 2 ≤ values.length →
      ∃ r, calculate_trend values periods = TrendOutcome.ok r ∧
        r.periods = periods ∧
        r.values = values ∧
        r.mean = values.sum / (values.length : ℚ) ∧
        r.min_value ∈ values ∧ (∀ y ∈ values, r.min_value ≤ y) ∧
        r.max_value ∈ values ∧ (∀ y ∈ values, y ≤ r.max_value) ∧
        (∃ i, values.get? i = some r.min_value ∧
          (∀ j, j < i → values.get? j ≠ some r.min_value) ∧
          periods.get? i = some r.min_period) ∧
        (∃ i, values.get? i = some r.max_value ∧
          (∀ j, j < i → values.get? j ≠ some r.max_value) ∧
          periods.get? i = some r.max_period) ∧
        r.growth_rates = (values.zip values.tail).map
          (fun q => if q.1 ≠ 0 then (q.2 - q.1) / q.1 * 100 else 0) ∧
        r.growth_rates.length + 1 = values.length ∧
        r.average_growth = r.growth_rates.sum /
          ((r.growth_rates.length : ℕ) : ℚ)) ∧
    (∀ (values : List ℚ) (periods : List String), values.length < 2 →
      calculate_trend values periods =
        TrendOutcome.err "Need at least 2 values for trend analysis") ∧
    calculate_trend [100, 200, 150] ["p1", "p2", "p3"] =
      TrendOutcome.ok ⟨["p1", "p2", "p3"], [100, 200, 150], 150, 100, "p1",
        200, "p2", [100, -25], 75/2⟩ := by
  refine ⟨fun values periods h h2 =>
    calculate_trend_ok values periods h2 (le_of_eq h), ?_, ?_⟩
  · intro values periods h
    match values with
    | [] => rfl
    | [_] => rfl
    | _ :: _ :: _ => simp at h; omega
  · norm_num [calculate_trend, pyMin, pyMax, firstIdx, growthRates,
      List.cons_ne_nil]

/-- C6 witness: the parallel-lists branch of the theorem applied at a
concrete input. -/
theorem claim_C6_witness :
    ∃ r, calculate_trend [100, 200] ["a", "b"] = TrendOutcome.ok r ∧
      r.mean = ([100, 200] : List ℚ).sum / ((([100, 200] : List ℚ).length : ℕ) : ℚ) :=
  (claim_C6.1 [100, 200] ["a", "b"] rfl (by decide)).elim
    (fun r hr => ⟨r, hr.1, hr.2.2.2.1⟩)

/-- C10: `calculate_trend` never checks that its lists are parallel; when
the periods list is at least as long as the values list the result is
returned normally, but values=[1,2] with periods=[] (two values, shorter
periods list) hits an uncaught IndexError at the extremum period lookup
instead of a typed error result. -/
theorem claim_C10 :
    (∀ (values : List ℚ) (periods : List String), 2 ≤ values.length →
      values.length ≤ periods.length →
      ∃ r, calculate_trend values periods = TrendOutcome.ok r) ∧
    2 ≤ ([1, 2] : List ℚ).length ∧
    ([] : List String).length < ([1, 2] : List ℚ).length ∧
    calculate_trend [1, 2] ([] : List String) = TrendOutcome.indexError := by
  refine ⟨fun values periods h2 hlen =>
    (calculate_trend_ok values periods h2 hlen).elim fun r hr => ⟨r, hr.1⟩,
    by decide, by decide, by decide⟩

/-- C10 witness: the normal-return branch applied at a concrete input. -/
theorem claim_C10_witness :
    ∃ r, calculate_trend [7, 9] ["x", "y", "z"] = TrendOutcome.ok r :=
  claim_C10.1 [7, 9] ["x", "y", "z"] (by decide) (by decide)

/-- For a metric with both bands defined, the validator yields exactly one
of the three outcomes on every value. -/
theorem validate_cases (m : String) (tmin tmax mmin mmax : ℚ)
    (ht : tableCellRange m = some (tmin, tmax))
    (hm : mainFinancialRange m = some (mmin, mmax)) (v : ℚ) :
    (outcomeTableCell (validate_extraction m v) ∨
      outcomeMain (validate_extraction m v) ∨
      outcomeInvalid (validate_extraction m v)) ∧
    ¬(outcomeTableCell (validate_extraction m v) ∧
      outcomeMain (validate_extraction m v)) ∧
    ¬(outcomeTableCell (validate_extraction m v) ∧
      outcomeInvalid (validate_extraction m v)) ∧
    ¬(outcomeMain (validate_extraction m v) ∧
      outcomeInvalid (validate_extraction m v)) := by
  simp only [validate_extraction, hm, ht]
  by_cases h1 : tmin ≤ v ∧ v ≤ tmax
  · simp [h1, outcomeTableCell, outcomeMain, outcomeInvalid]
  · by_cases h2 : mmin ≤ v ∧ v ≤ mmax
    · simp [h1, h2, outcomeTableCell, outcomeMain, outcomeInvalid]
    · simp [h1, h2, outcomeTableCell, outcomeMain, outcomeInvalid]

/-- C3 counterexample: the value 1000 for net_profit is positive and lies
in both the table-cell band (1..1000) and the main-financial band
(1000..20000), so the two bands are not disjoint. -/
theorem claim_C3_counterexample :
    (0 : ℚ) < 1000 ∧
    inBand (tableCellRange "net_profit") 1000 ∧
    inBand (mainFinancialRange "net_profit") 1000 := by
  refine ⟨by norm_num, ?_, ?_⟩ <;>
    · simp only [show tableCellRange "net_profit" = some (1, 1000) from rfl,
        show mainFinancialRange "net_profit" = some (1000, 20000) from rfl,
        inBand]
      norm_num

/-- C3 (amended): for every modelled metric the validator is total on
positive values with exactly one of the three outcomes (the table-cell
check runs first); the two bands are disjoint for total_assets,
shareholder_equity, total_loans and total_deposits, but for net_profit and
net_interest_income they overlap at the shared endpoint 1000. -/
theorem claim_C3 :
    (∀ m ∈ modelledMetrics, ∀ v : ℚ, 0 < v →
      ((outcomeTableCell (validate_extraction m v) ∨
        outcomeMain (validate_extraction m v) ∨
        outcomeInvalid (validate_extraction m v)) ∧
      ¬(outcomeTableCell (validate_extraction m v) ∧
        outcomeMain (validate_extraction m v)) ∧
      ¬(outcomeTableCell (validate_extraction m v) ∧
        outcomeInvalid (validate_extraction m v)) ∧
      ¬(outcomeMain (validate_extraction m v) ∧
        outcomeInvalid (validate_extraction m v)))) ∧
    (∀ v : ℚ, ¬(inBand (tableCellRange "total_assets") v ∧
      inBand (mainFinancialRange "total_assets") v)) ∧
    (∀ v : ℚ, ¬(inBand (tableCellRange "shareholder_equity") v ∧
      inBand (mainFinancialRange "shareholder_equity") v)) ∧
    (∀ v : ℚ, ¬(inBand (tableCellRange "total_loans") v ∧
      inBand (mainFinancialRange "total_loans") v)) ∧
    (∀ v : ℚ, ¬(inBand (tableCellRange "total_deposits") v ∧
      inBand (mainFinancialRange "total_deposits") v)) ∧
    (inBand (tableCellRange "net_profit") 1000 ∧
      inBand (mainFinancialRange "net_profit") 1000) ∧
    (inBand (tableCellRange "net_interest_income") 1000 ∧
      inBand (mainFinancialRange "net_interest_income") 1000) := by
  refine ⟨?_, ?_, ?_, ?_, ?_, ?_, ?_⟩
  · intro m hm v _
    fin_cases hm
    · exact validate_cases "net_profit" 1 1000 1000 20000 rfl rfl v
    · exact validate_cases "total_assets" 1 10000 400000 1200000 rfl rfl v
    · exact validate_cases "shareholder_equity" 1 10000 80000 120000 rfl rfl v
    · exact validate_cases "total_loans" 1 10000 200000 500000 rfl rfl v
    · exact validate_cases "total_deposits" 1 10000 300000 600000 rfl rfl v
    · exact validate_cases "net_interest_income" 1 1000 1000 15000 rfl rfl v
  · intro v
    simp only [show tableCellRange "total_assets" = some (1, 10000) from rfl,
      show mainFinancialRange "total_assets" = some (400000, 1200000) from rfl,
      inBand]
    rintro ⟨⟨-, h2⟩, h3, -⟩
    linarith
  · intro v
    simp only [show tableCellRange "shareholder_equity" = some (1, 10000) from rfl,
      show mainFinancialRange "shareholder_equity" = some (80000, 120000) from rfl,
      inBand]
    rintro ⟨⟨-, h2⟩, h3, -⟩
    linarith
  · intro v
    simp only [show tableCellRange "total_loans" = some (1, 10000) from rfl,
      show mainFinancialRange "total_loans" = some (200000, 500000) from rfl,
      inBand]
    rintro ⟨⟨-, h2⟩, h3, -⟩
    linarith
  · intro v
    simp only [show tableCellRange "total_deposits" = some (1, 10000) from rfl,
      show mainFinancialRange "total_deposits" = some (300000, 600000) from rfl,
      inBand]
    rintro ⟨⟨-, h2⟩, h3, -⟩
    linarith
  · simp only [show tableCellRange "net_profit" = some (1, 1000) from rfl,
      show mainFinancialRange "net_profit" = some (1000, 20000) from rfl,
      inBand]
    norm_num
  · simp only [show tableCellRange "net_interest_income" = some (1, 1000) from rfl,
      show mainFinancialRange "net_interest_income" = some (1000, 15000) from rfl,
      inBand]
    norm_num

/-- C3 witness: the totality branch of the theorem applied at a concrete
metric and value. -/
theorem claim_C3_witness :
    outcomeTableCell (validate_extraction "net_profit" 500) ∨
    outcomeMain (validate_extraction "net_profit" 500) ∨
    outcomeInvalid (validate_extraction "net_profit" 500) :=
  (claim_C3.1 "net_profit" (by decide) 500 (by norm_num)).1

/-- A successfully constructed data point carries exactly the value and
confidence it was built from, and the pydantic bound on confidence held. -/
theorem mk_some {name : String} {v : ℚ} {period : String} {conf : ℚ}
    {page : Int} {sect : String} {dp : FinancialDataPoint}
    (h : mkFinancialDataPoint name v period conf page sect = some dp) :
    dp.value = v ∧ dp.confidence = conf ∧ 0 ≤ conf ∧ conf ≤ 1 := by
  unfold mkFinancialDataPoint at h
  cases hof : FinancialMetric.ofString name with
  | none => rw [hof] at h; exact absurd h (by simp)
  | some m =>
    rw [hof] at h
    dsimp only at h
    by_cases hc : 0 ≤ conf ∧ conf ≤ 1
    · rw [if_pos hc] at h
      cases h
      exact ⟨rfl, rfl, hc.1, hc.2⟩
    · rw [if_neg hc] at h
      exact absurd h (by simp)

/-- For a metric with both bands defined at positive minima, validator
acceptance implies the value is positive. -/
theorem valid_pos (name : String) (tmin tmax mmin mmax : ℚ)
    (ht : tableCellRange name = some (tmin, tmax))
    (hm : mainFinancialRange name = some (mmin, mmax))
    (h0t : 0 < tmin) (h0m : 0 < mmin) (v : ℚ)
    (hv : (validate_extraction name v).is_valid = true) : 0 < v := by
  simp only [validate_extraction, hm, ht] at hv
  by_cases h1 : tmin ≤ v ∧ v ≤ tmax
  · exact lt_of_lt_of_le h0t h1.1
  · rw [if_neg h1] at hv
    by_cases h2 : mmin ≤ v ∧ v ≤ mmax
    · exact lt_of_lt_of_le h0m h2.1
    · rw [if_neg h2] at hv
      simp at hv

/-- C4: every data point the extraction stage constructs — from a
text-pattern candidate or from a pre-extracted table metric whose name
comes from the table extractor's mapping — has a strictly positive value
and confidence in [0, 1]; non-positive candidates are rejected (by the
explicit positivity guard on the text path, and by band validation on the
table path) before any data point is constructed. -/
theorem claim_C4 :
    (∀ (convert : String → ℚ) (cands : List (String × String))
        (period : String) (page : Int) (sect : String),
      ∀ dp ∈ extract_from_candidates convert cands period page sect,
        0 < dp.value ∧ 0 ≤ dp.confidence ∧ dp.confidence ≤ 1) ∧
    (∀ (entries : List TableMetricEntry) (period : String) (page : Int)
        (sect : String), (∀ e ∈ entries, e.name ∈ tableMetricKeys) →
      ∀ dp ∈ extract_from_table_data entries period page sect,
        0 < dp.value ∧ 0 ≤ dp.confidence ∧ dp.confidence ≤ 1) := by
  constructor
  · intro convert cands period page sect dp hdp
    obtain ⟨c, _, hsome⟩ := List.mem_filterMap.mp hdp
    simp only [extract_from_candidates] at hsome
    by_cases hpos : convert c.2 ≠ 0 ∧ 0 < convert c.2
    · rw [if_pos hpos] at hsome
      by_cases hvalid : (validate_extraction c.1 (convert c.2)).is_valid = true
      · rw [if_pos hvalid] at hsome
        obtain ⟨hval, hconf, hc0, hc1⟩ := mk_some hsome
        exact ⟨hval ▸ hpos.2, hconf ▸ hc0, hconf ▸ hc1⟩
      · rw [if_neg hvalid] at hsome
        exact absurd hsome (by simp)
    · rw [if_neg hpos] at hsome
      exact absurd hsome (by simp)
  · intro entries period page sect hnames dp hdp
    obtain ⟨e, he, hsome⟩ := List.mem_filterMap.mp hdp
    simp only [extract_from_table_data] at hsome
    by_cases hvalid : (validate_extraction e.name e.value).is_valid = true
    · rw [if_pos hvalid] at hsome
      obtain ⟨hval, hconf, hc0, hc1⟩ := mk_some hsome
      have hpos : 0 < e.value := by
        have hkey := hnames e he
        simp only [tableMetricKeys, List.mem_cons, List.mem_singleton,
          List.not_mem_nil, or_false] at hkey
        rcases hkey with h | h | h | h | h | h
        · exact valid_pos e.name 1 1000 1000 20000 (by rw [h]; rfl) (by rw [h]; rfl)
            (by norm_num) (by norm_num) e.value hvalid
        · exact valid_pos e.name 1 10000 400000 1200000 (by rw [h]; rfl) (by rw [h]; rfl)
            (by norm_num) (by norm_num) e.value hvalid
        · exact valid_pos e.name 1 10000 200000 500000 (by rw [h]; rfl) (by rw [h]; rfl)
            (by norm_num) (by norm_num) e.value hvalid
        · exact valid_pos e.name 1 10000 300000 600000 (by rw [h]; rfl) (by rw [h]; rfl)
            (by norm_num) (by norm_num) e.value hvalid
        · exact valid_pos e.name 1 10000 80000 120000 (by rw [h]; rfl) (by rw [h]; rfl)
            (by norm_num) (by norm_num) e.value hvalid
        · exact valid_pos e.name 1 1000 1000 15000 (by rw [h]; rfl) (by rw [h]; rfl)
            (by norm_num) (by norm_num) e.value hvalid
      exact ⟨hval ▸ hpos, hconf ▸ hc0, hconf ▸ hc1⟩
    · rw [if_neg hvalid] at hsome
      exact absurd hsome (by simp)

/-- C1: the spec requires the Data Point Aggregator to retain the
highest-confidence value for a duplicate (period, metric) pair (ties by
most recently added), never simply the last-seen value.  The code's
`_group_data_by_period` does plain dict assignment, so the last-seen value
wins: fed a confidence-0.8 point (value 5000) and then a confidence-0.6
point (value 300) for (2022_Q1, net_profit), the mapping holds 300, the
lower-confidence value, not 5000. -/
theorem claim_C1 :
    group_data_by_period [dupHigherConf, dupLowerConf] "2022_Q1"
        .net_profit = some 300 ∧
    dupLowerConf.confidence < dupHigherConf.confidence ∧
    dupHigherConf.value = 5000 ∧
    dupHigherConf.period = "2022_Q1" ∧ dupLowerConf.period = "2022_Q1" ∧
    dupHigherConf.metric = .net_profit ∧ dupLowerConf.metric = .net_profit ∧
    (300 : ℚ) ≠ 5000 := by
  refine ⟨?_, ?_, rfl, rfl, rfl, rfl, rfl, by norm_num⟩
  · simp [group_data_by_period, dupHigherConf, dupLowerConf]
  · show (3 : ℚ)/5 < 4/5
    norm_num

/-- C2 counterexample: the claim says a value at either edge of the
main-financial band yields confidence exactly 0.7; for shareholder_equity
(band 80000..120000, midpoint 100000, edge deviation 0.2) the edge value
120000 yields max(0.7, 1 − 0.2) = 0.8 ≠ 0.7. -/
theorem claim_C2_counterexample :
    mainFinancialRange "shareholder_equity" = some (80000, 120000) ∧
    (validate_extraction "shareholder_equity" 120000).confidence = 4/5 ∧
    (validate_extraction "shareholder_equity" 80000).confidence = 4/5 ∧
    ((4 : ℚ)/5 ≠ 7/10) := by
  refine ⟨rfl, ?_, ?_, by norm_num⟩ <;>
    norm_num [validate_extraction, mainFinancialRange, tableCellRange,
      round2, max_def, abs]

/-- C2 (amended): for every metric with bands, the exact midpoint of the
main-financial band yields confidence 1.0; a band edge yields
max(0.7, 1 − edge-deviation), which is 0.7 for every metric except
shareholder_equity, whose narrow band (edge deviation 0.2) yields 0.8 at
both edges.  (For net_profit and net_interest_income the low edge 1000
also lies in the table-cell band, whose branch likewise yields 0.7.) -/
theorem claim_C2 :
    (validate_extraction "net_profit" 10500).confidence = 1 ∧
    (validate_extraction "net_profit" 1000).confidence = 7/10 ∧
    (validate_extraction "net_profit" 20000).confidence = 7/10 ∧
    (validate_extraction "total_assets" 800000).confidence = 1 ∧
    (validate_extraction "total_assets" 400000).confidence = 7/10 ∧
    (validate_extraction "total_assets" 1200000).confidence = 7/10 ∧
    (validate_extraction "shareholder_equity" 100000).confidence = 1 ∧
    (validate_extraction "shareholder_equity" 80000).confidence = 4/5 ∧
    (validate_extraction "shareholder_equity" 120000).confidence = 4/5 ∧
    (validate_extraction "total_loans" 350000).confidence = 1 ∧
    (validate_extraction "total_loans" 200000).confidence = 7/10 ∧
    (validate_extraction "total_loans" 500000).confidence = 7/10 ∧
    (validate_extraction "total_deposits" 450000).confidence = 1 ∧
    (validate_extraction "total_deposits" 300000).confidence = 7/10 ∧
    (validate_extraction "total_deposits" 600000).confidence = 7/10 ∧
    (validate_extraction "net_interest_income" 8000).confidence = 1 ∧
    (validate_extraction "net_interest_income" 1000).confidence = 7/10 ∧
    (validate_extraction "net_interest_income" 15000).confidence = 7/10 := by
  refine ⟨?_, ?_, ?_, ?_, ?_, ?_, ?_, ?_, ?_, ?_, ?_, ?_, ?_, ?_, ?_, ?_,
    ?_, ?_⟩ <;>
    norm_num [validate_extraction, mainFinancialRange, tableCellRange,
      round2, max_def, abs]

/-- C5: every ratio/percentage-change call with a zero denominator returns
the typed error dict with its message (never a numeric result; the
embedding is a total function, so no exception escapes), and with a
non-zero denominator each returns its numeric result. -/
theorem claim_C5 (o n ni se tl td nii ea : ℚ)
    (ho : o ≠ 0) (hse : se ≠ 0) (htd : td ≠ 0) (hea : ea ≠ 0) :
    (∀ x : ℚ, calculate_percentage_change 0 x =
      .error "Cannot calculate percentage change from zero") ∧
    calculate_percentage_change o n = .ok ⟨o, n, n - o, (n - o) / o * 100⟩ ∧
    (∀ x : ℚ, calculate_roe x 0 =
      .error "Cannot calculate ROE with zero equity") ∧
    calculate_roe ni se = .ok (ni / se * 100) ∧
    (∀ x : ℚ, calculate_loan_to_deposit x 0 =
      .error "Cannot calculate LDR with zero deposits") ∧
    calculate_loan_to_deposit tl td = .ok (tl / td * 100) ∧
    (∀ x : ℚ, calculate_nim x 0 =
      .error "Cannot calculate NIM with zero earning assets") ∧
    calculate_nim nii ea = .ok (nii / ea * 100) := by
  refine ⟨fun x => ?_, ?_, fun x => ?_, ?_, fun x => ?_, ?_, fun x => ?_, ?_⟩ <;>
    simp [calculate_percentage_change, calculate_roe,
      calculate_loan_to_deposit, calculate_nim, ho, hse, htd, hea]

/-- C5 witness: the theorem applied at concrete inputs. -/
theorem claim_C5_witness :
    calculate_percentage_change 100 150 =
      .ok ⟨100, 150, 150 - 100, (150 - 100) / 100 * 100⟩ ∧
    calculate_roe 5120 110992 = .ok (5120 / 110992 * 100) ∧
    calculate_loan_to_deposit 459000 589000 = .ok (459000 / 589000 * 100) ∧
    calculate_nim 4000 900000 = .ok (4000 / 900000 * 100) ∧
    calculate_percentage_change 0 7 =
      .error "Cannot calculate percentage change from zero" := by
  have h := claim_C5 100 150 5120 110992 459000 589000 4000 900000
    (by norm_num) (by norm_num) (by norm_num) (by norm_num)
  exact ⟨h.2.1, h.2.2.2.1, h.2.2.2.2.2.1, h.2.2.2.2.2.2.2, h.1 7⟩

/-- C8: the period parser's result has no duplicates (Python's
`list(set(...))`), and on "Compare Q1 2022 and Q1 2023" it yields exactly
the two distinct periods 2022_Q1 and 2023_Q1. -/
theorem claim_C8 :
    (∀ s : String, (extract_target_periods s).Nodup) ∧
    (extract_target_periods "Compare Q1 2022 and Q1 2023").length = 2 ∧
    "2022_Q1" ∈ extract_target_periods "Compare Q1 2022 and Q1 2023" ∧
    "2023_Q1" ∈ extract_target_periods "Compare Q1 2022 and Q1 2023" := by
  refine ⟨fun s => List.nodup_dedup _, ?_, ?_, ?_⟩ <;> decide

end FinSpec

namespace FinSpec

theorem toUpper_isQChar {c : Char} (h : isQChar c = true) : c.toUpper = 'Q' := by
  simp [isQChar] at h
  rcases h with h | h <;> subst h <;> decide

theorem toUpper_quarterDigit {c : Char} (h : isQuarterDigit c = true) :
    c.toUpper = c := by
  simp [isQuarterDigit] at h
  rcases h with ((h | h) | h) | h <;> subst h <;> decide

theorem toUpper_ne_Q_of_digit {c : Char} (h : pyIsDigit c = true) :
    c.toUpper ≠ 'Q' := by
  simp [pyIsDigit] at h
  intro hc
  simp only [Char.toUpper] at hc
  by_cases h97 : c.toNat ≥ 97 ∧ c.toNat ≤ 122
  · omega
  · rw [if_neg h97] at hc
    subst hc
    revert h
    decide

theorem takeDigits4_some {l : List Char} {t : Char × Char × Char × Char}
    {rest : List Char} (h : takeDigits4 l = some (t, rest)) :
    pyIsDigit t.1 = true ∧ pyIsDigit t.2.1 = true ∧
    pyIsDigit t.2.2.1 = true ∧ pyIsDigit t.2.2.2 = true := by
  match l with
  | [] => simp [takeDigits4] at h
  | [_] => simp [takeDigits4] at h
  | [_, _] => simp [takeDigits4] at h
  | [_, _, _] => simp [takeDigits4] at h
  | d1 :: d2 :: d3 :: d4 :: r =>
    simp only [takeDigits4] at h
    by_cases hd : (pyIsDigit d1 && pyIsDigit d2 && pyIsDigit d3 && pyIsDigit d4) = true
    · rw [if_pos hd] at h
      injection h with h'
      injection h' with h1 h2
      subst h1
      simp only [Bool.and_eq_true] at hd
      exact ⟨hd.1.1.1, hd.1.1.2, hd.1.2, hd.2⟩
    · rw [if_neg hd] at h
      exact absurd h (by simp)

theorem matchQYear_shape {l : List Char} {g : List Char × List Char}
    {rest : List Char} (h : matchQYear l = some (g, rest)) :
    ∃ c1 c2 d1 d2 d3 d4, g = ([c1, c2], [d1, d2, d3, d4]) ∧
      isQChar c1 = true ∧ isQuarterDigit c2 = true ∧
      pyIsDigit d1 = true ∧ pyIsDigit d2 = true ∧
      pyIsDigit d3 = true ∧ pyIsDigit d4 = true := by
  match l with
  | [] => simp [matchQYear] at h
  | [_] => simp [matchQYear] at h
  | c1 :: c2 :: r =>
    simp only [matchQYear] at h
    by_cases h1 : (isQChar c1 && isQuarterDigit c2) = true
    · rw [if_pos h1] at h
      cases htd : takeDigits4 (r.dropWhile isPySpace) with
      | none => rw [htd] at h; exact absurd h (by simp)
      | some pr =>
        obtain ⟨⟨d1, d2, d3, d4⟩, rest2⟩ := pr
        rw [htd] at h
        injection h with h'
        injection h' with hg hr
        obtain ⟨q1, q2, q3, q4⟩ := takeDigits4_some htd
        simp only [Bool.and_eq_true] at h1
        exact ⟨c1, c2, d1, d2, d3, d4, hg.symm, h1.1, h1.2, q1, q2, q3, q4⟩
    · rw [if_neg h1] at h
      exact absurd h (by simp)

theorem matchYearQ_shape {l : List Char} {g : List Char × List Char}
    {rest : List Char} (h : matchYearQ l = some (g, rest)) :
    ∃ d1 d2 d3 d4 q n, g = ([d1, d2, d3, d4], [q, n]) ∧
      pyIsDigit d1 = true ∧ pyIsDigit d2 = true ∧
      pyIsDigit d3 = true ∧ pyIsDigit d4 = true ∧
      isQChar q = true ∧ isQuarterDigit n = true := by
  simp only [matchYearQ] at h
  cases htd : takeDigits4 l with
  | none => rw [htd] at h; exact absurd h (by simp)
  | some pr =>
    obtain ⟨⟨d1, d2, d3, d4⟩, rest1⟩ := pr
    rw [htd] at h
    dsimp only at h
    obtain ⟨p1, p2, p3, p4⟩ := takeDigits4_some htd
    cases hd : rest1.dropWhile isPySpace with
    | nil => rw [hd] at h; exact absurd h (by simp)
    | cons q t =>
      cases t with
      | nil => rw [hd] at h; exact absurd h (by simp)
      | cons n rest2 =>
        rw [hd] at h
        dsimp only at h
        by_cases h1 : (isQChar q && isQuarterDigit n) = true
        · rw [if_pos h1] at h
          injection h with h'
          injection h' with hg hr
          simp only [Bool.and_eq_true] at h1
          exact ⟨d1, d2, d3, d4, q, n, hg.symm, p1, p2, p3, p4, h1.1, h1.2⟩
        · rw [if_neg h1] at h
          exact absurd h (by simp)

theorem findAllAux_prop {P : (List Char × List Char) → Prop}
    {m : List Char → Option ((List Char × List Char) × List Char)}
    (hm : ∀ l g rest, m l = some (g, rest) → P g) :
    ∀ (fuel : ℕ) (l : List Char), ∀ g ∈ findAllAux m fuel l, P g := by
  intro fuel
  induction fuel with
  | zero => intro l g hg; simp [findAllAux] at hg
  | succ f ih =>
    intro l g hg
    match l with
    | [] => simp [findAllAux] at hg
    | c :: cs =>
      rw [findAllAux] at hg
      cases hmc : m (c :: cs) with
      | none => rw [hmc] at hg; exact ih cs g hg
      | some pr =>
        obtain ⟨g', rest⟩ := pr
        rw [hmc] at hg
        rcases List.mem_cons.mp hg with rfl | hg'
        · exact hm _ _ _ hmc
        · exact ih rest g hg'

theorem valid_of_matchQYear {l : List Char} {g : List Char × List Char}
    {rest : List Char} (h : matchQYear l = some (g, rest)) :
    validPeriodString (periodOfGroups g) := by
  obtain ⟨c1, c2, d1, d2, d3, d4, hg, hq, hqd, h1, h2, h3, h4⟩ := matchQYear_shape h
  subst hg
  have hs : startsWithUpperQ [c1, c2] = true := by
    simp [startsWithUpperQ, upperChars, toUpper_isQChar hq]
  refine ⟨[d1, d2, d3, d4], c2, ?_, rfl, ?_, ?_⟩
  · simp only [periodOfGroups, hs, if_true]
    simp [upperChars, toUpper_isQChar hq, toUpper_quarterDigit hqd]
  · intro d hd
    fin_cases hd <;> assumption
  · simpa [isQuarterDigit, or_assoc] using hqd

theorem valid_of_matchYearQ {l : List Char} {g : List Char × List Char}
    {rest : List Char} (h : matchYearQ l = some (g, rest)) :
    validPeriodString (periodOfGroups g) := by
  obtain ⟨d1, d2, d3, d4, q, n, hg, h1, h2, h3, h4, hq, hqd⟩ := matchYearQ_shape h
  subst hg
  have hs : startsWithUpperQ [d1, d2, d3, d4] = false := by
    simp [startsWithUpperQ, upperChars, toUpper_ne_Q_of_digit h1]
  refine ⟨[d1, d2, d3, d4], n, ?_, rfl, ?_, ?_⟩
  · simp only [periodOfGroups, hs, if_false, Bool.false_eq_true]
    simp [upperChars, toUpper_isQChar hq, toUpper_quarterDigit hqd]
  · intro d hd
    fin_cases hd <;> assumption
  · simpa [isQuarterDigit, or_assoc] using hqd

/-- C7: the period parser never coerces an invalid quarter: the query
"What was net profit in Q5 2023?" yields no period at all, and every
period any query ever yields has the shape YYYY_Qn with n in 1..4 (the
embedding is a total function, so no input raises). -/
theorem claim_C7 :
    extract_target_periods "What was net profit in Q5 2023?" = [] ∧
    (∀ (s : String) (p : String),
      p ∈ extract_target_periods s → validPeriodString p) := by
  constructor
  · decide
  · intro s p hp
    simp only [extract_target_periods] at hp
    rw [List.mem_dedup] at hp
    obtain ⟨g, hg, rfl⟩ := List.mem_map.mp hp
    rcases List.mem_append.mp hg with hg' | hg'
    · exact findAllAux_prop (fun l g r h => valid_of_matchQYear h) _ _ g hg'
    · exact findAllAux_prop (fun l g r h => valid_of_matchYearQ h) _ _ g hg'


/-- C7 witness: the non-coercion branch of the theorem applied at a
concrete query and emitted period. -/
theorem claim_C7_witness : validPeriodString "2022_Q1" :=
  claim_C7.2 "Q1 2022" "2022_Q1" (by decide)

end FinSpec

namespace FinSpec

/-- C4 witness: the text-candidate branch of the theorem applied at a
concrete candidate list. -/
theorem claim_C4_witness :
    0 < (⟨FinancialMetric.net_profit, 5, "p", 7/10, 1, "s"⟩ : FinancialDataPoint).value ∧
    0 ≤ (⟨FinancialMetric.net_profit, 5, "p", 7/10, 1, "s"⟩ : FinancialDataPoint).confidence ∧
    (⟨FinancialMetric.net_profit, 5, "p", 7/10, 1, "s"⟩ : FinancialDataPoint).confidence ≤ 1 :=
  claim_C4.1 (fun _ => 5) [("net_profit", "x")] "p" 1 "s"
    ⟨FinancialMetric.net_profit, 5, "p", 7/10, 1, "s"⟩ (by
      have h : extract_from_candidates (fun _ => 5) [("net_profit", "x")] "p" 1 "s" =
          [⟨FinancialMetric.net_profit, 5, "p", 7/10, 1, "s"⟩] := by
        norm_num [extract_from_candidates, List.filterMap_cons, List.filterMap_nil,
          validate_extraction, tableCellRange,
          mainFinancialRange, mkFinancialDataPoint, FinancialMetric.ofString]
      rw [h]
      exact List.mem_singleton.mpr rfl)
end FinSpec

namespace FinSpec

theorem splitDots_all_dots : ∀ {l : List Char}, (∀ c ∈ l, c = '.') →
    splitDots l = List.replicate (l.length + 1) [] := by
  intro l
  induction l with
  | nil => intro _; rfl
  | cons c t ih =>
    intro h
    have hc : c = '.' := h c (List.mem_cons_self c t)
    simp only [splitDots, hc, if_pos]
    rw [ih (fun c hc' => h c (List.mem_cons_of_mem _ hc'))]
    simp [List.replicate, List.length_cons]

theorem parse_none_of_all_dots {l : List Char} (h : ∀ c ∈ l, c = '.') :
    parseFloatDigitsDots l = none := by
  simp only [parseFloatDigitsDots, splitDots_all_dots h]
  match l with
  | [] => simp [List.replicate]
  | [c] => simp [List.replicate]
  | c :: c' :: t => simp [List.replicate]

theorem not_containsSub_of_head_notmem {c : Char} {n h : List Char}
    (hc : c ∉ h) : containsSub (c :: n) h = false := by
  induction h with
  | nil => rfl
  | cons d ds ih =>
    have hcd : c ≠ d := fun he => hc (he ▸ List.mem_cons_self d ds)
    have hds : c ∉ ds := fun he => hc (List.mem_cons_of_mem d he)
    simp only [containsSub, beginsWith, Bool.or_eq_false_iff]
    constructor
    · simp [hcd]
    · exact ih hds

theorem toLower_digit_dot {c : Char} (h : pyIsDigit c = true ∨ c = '.') :
    c.toLower = c := by
  rcases h with h | h
  · simp [pyIsDigit] at h
    simp only [Char.toLower]
    rw [if_neg (by omega)]
  · subst h; decide

/-- C9: the Value Normalizer is a total function (the embedding returns a
rational for every string, modelling that every failure is caught and
yields the 0.0 sentinel): a string with no digits yields 0; otherwise the
parsed literal (non-digit, non-dot characters stripped) is scaled by the
unit-word cascade — trillion ×1,000,000, billion/bn ×1,000, a "'000"
marker ÷1,000, plain million or no unit unchanged — so a plain
already-millions literal is returned unchanged. -/
theorem claim_C9 :
    (∀ s : String, (∀ c ∈ s.data, pyIsDigit c = false) →
      convert_to_numeric s = 0) ∧
    (∀ (s : String) (p : ℕ × ℕ),
      parseFloatDigitsDots (cleanNumeric s.data) = some p →
      (containsSub "trillion".data (lowerChars s.data) = true →
        convert_to_numeric s = floatOfParts p * 1000000) ∧
      (containsSub "trillion".data (lowerChars s.data) = false →
       (containsSub "billion".data (lowerChars s.data) = true ∨
        containsSub "bn".data (lowerChars s.data) = true) →
        convert_to_numeric s = floatOfParts p * 1000) ∧
      (containsSub "trillion".data (lowerChars s.data) = false →
       containsSub "billion".data (lowerChars s.data) = false →
       containsSub "bn".data (lowerChars s.data) = false →
       containsSub thousandsMarker s.data = true →
        convert_to_numeric s = floatOfParts p / 1000) ∧
      (containsSub "trillion".data (lowerChars s.data) = false →
       containsSub "billion".data (lowerChars s.data) = false →
       containsSub "bn".data (lowerChars s.data) = false →
       containsSub thousandsMarker s.data = false →
        convert_to_numeric s = floatOfParts p)) ∧
    (∀ (s : String) (p : ℕ × ℕ),
      (∀ c ∈ s.data, pyIsDigit c = true ∨ c = '.') →
      parseFloatDigitsDots s.data = some p →
      convert_to_numeric s = floatOfParts p) := by
  refine ⟨?_, ?_, ?_⟩
  · intro s h
    have hdots : ∀ c ∈ cleanNumeric s.data, c = '.' := by
      intro c hc
      obtain ⟨hmem, hpred⟩ := List.mem_filter.mp hc
      rcases Bool.or_eq_true_iff.mp hpred with h1 | h1
      · exact absurd h1 (by simp [h c hmem])
      · exact of_decide_eq_true h1
    simp only [convert_to_numeric, parse_none_of_all_dots hdots]
  · intro s p hp
    refine ⟨?_, ?_, ?_, ?_⟩
    · intro ht
      simp only [convert_to_numeric, hp, ht, if_true]
    · intro ht hb
      rcases hb with hb | hb <;>
        simp [convert_to_numeric, hp, ht, hb]
    · intro ht hb1 hb2 hm
      simp [convert_to_numeric, hp, ht, hb1, hb2, hm]
    · intro ht hb1 hb2 hm
      simp [convert_to_numeric, hp, ht, hb1, hb2, hm]
  · intro s p hchars hp
    have hclean : cleanNumeric s.data = s.data := by
      rw [cleanNumeric, List.filter_eq_self]
      intro c hc
      rcases hchars c hc with h | h <;> simp [h]
    have hlowchars : ∀ c ∈ lowerChars s.data, pyIsDigit c = true ∨ c = '.' := by
      intro c hc
      obtain ⟨c', hc', rfl⟩ := List.mem_map.mp hc
      rw [toLower_digit_dot (hchars c' hc')]
      exact hchars c' hc'
    have htril : containsSub "trillion".data (lowerChars s.data) = false := by
      have : "trillion".data = 't' :: "rillion".data := rfl
      rw [this]
      refine not_containsSub_of_head_notmem (fun hmem => ?_)
      rcases hlowchars 't' hmem with h | h
      · exact absurd h (by decide)
      · exact absurd h (by decide)
    have hbil : containsSub "billion".data (lowerChars s.data) = false := by
      have : "billion".data = 'b' :: "illion".data := rfl
      rw [this]
      refine not_containsSub_of_head_notmem (fun hmem => ?_)
      rcases hlowchars 'b' hmem with h | h
      · exact absurd h (by decide)
      · exact absurd h (by decide)
    have hbn : containsSub "bn".data (lowerChars s.data) = false := by
      have : "bn".data = 'b' :: "n".data := rfl
      rw [this]
      refine not_containsSub_of_head_notmem (fun hmem => ?_)
      rcases hlowchars 'b' hmem with h | h
      · exact absurd h (by decide)
      · exact absurd h (by decide)
    have hmark : containsSub thousandsMarker s.data = false := by
      have : thousandsMarker = Char.ofNat 39 :: ['0', '0', '0'] := rfl
      rw [this]
      refine not_containsSub_of_head_notmem (fun hmem => ?_)
      rcases hchars (Char.ofNat 39) hmem with h | h
      · exact absurd h (by decide)
      · exact absurd h (by decide)
    have hp' : parseFloatDigitsDots (cleanNumeric s.data) = some p := by
      rw [hclean]; exact hp
    simp [convert_to_numeric, hp', htril, hbil, hbn, hmark]


/-- C9 witness: the no-digit branch and the plain-literal branch of the
theorem applied at concrete strings. -/
theorem claim_C9_witness :
    convert_to_numeric "no digits" = 0 ∧
    convert_to_numeric "5120" = floatOfParts (5120, 0) :=
  ⟨claim_C9.1 "no digits" (by decide),
   claim_C9.2.2 "5120" (5120, 0) (by decide) (by decide)⟩

end FinSpec
